import Mathlib

/-!
Shallow embedding of the core of the `llmagent` repository:

* `src/llmagent/agent/chat_agent.py` — the `ChatAgent` class with its
  `start`, `respond` and `run` methods.  The LLM capability
  (`Agent.respond_messages`, an external collaborator) is modelled as a
  function `List LLMMessage → Option Document`; `none` models the Python
  call raising an exception, which `ChatAgent` never catches.  The
  structured-action interpreter (`Agent.handle_message`) is modelled as a
  function `String → Option String` (Python returns `None` or a result
  that is converted with an f-string), and the human-input stream
  (`input()`) as a list of lines.

* `src/llmagent/parsing/urls.py` — `get_urls_and_paths` and the
  recursive crawler `find_urls`.  Pydantic URL validation and
  `os.path.exists` are modelled as boolean oracles in a `UrlEnv`;
  the network (HTTP fetch plus link extraction/`urljoin` resolution)
  as a `Web` record.  Ghost fields record the sequence of fetch
  attempts, failed fetches and filesystem checks, so that claims about
  "fetched at most once", "failure message emitted" and "filesystem
  check never consulted" are statable.
-/

namespace LLMAgent

/-- Message roles, from `llmagent.language_models.base.Role`
(imported by `chat_agent.py`; the closed set per the data model is
system, user, assistant). -/
inductive Role where
  | system
  | user
  | assistant
deriving DecidableEq, Repr

/-- A chat message, from `llmagent.language_models.base.LLMMessage`:
a role tag plus text content. -/
structure LLMMessage where
  role : Role
  content : String
deriving DecidableEq, Repr

/-- A document, from `llmagent.mytypes.Document`: fields `content` and
`metadata`.  The metadata payload is opaque to `ChatAgent` (it is passed
through unchanged), so it is modelled as a string. -/
structure Document where
  content : String
  metadata : String
deriving DecidableEq, Repr

/-- The LLM collaborator capability (`Agent.respond_messages`): given a
message sequence, return a reply `Document`; `none` models the
underlying SDK call raising, which propagates uncaught. -/
def LLM : Type := List LLMMessage → Option Document

/-- The mutable state of a `ChatAgent`: the initial task-spec messages
and the live `message_history` transcript
(`chat_agent.py`, `__init__`). -/
structure ChatAgent where
  task_messages : List LLMMessage
  message_history : List LLMMessage
deriving DecidableEq, Repr

/-- `ChatAgent.start` (`chat_agent.py` lines 78-92): send
`task_messages` to the LLM; on success set
`message_history = task_messages + [assistant reply]` and return the
reply as a `Document`.  On an LLM exception (`none`) the state is
unchanged and the exception propagates (`none` result). -/
def start (llm : LLM) (a : ChatAgent) : ChatAgent × Option Document :=
  match llm a.task_messages with
  | none => (a, none)
  | some response =>
      ({ a with
          message_history :=
            a.task_messages ++ [⟨Role.assistant, response.content⟩] },
       some ⟨response.content, response.metadata⟩)

/-- `ChatAgent.respond` (`chat_agent.py` lines 94-108): append a user
message to `message_history`, send the full history to the LLM, append
the assistant reply, return it as a `Document`.  If the LLM raises, the
user message has already been appended and the exception propagates
(`none` result, history keeps the extra user message). -/
def respond (llm : LLM) (a : ChatAgent) (message : String) :
    ChatAgent × Option Document :=
  let a1 : ChatAgent :=
    { a with
        message_history := a.message_history ++ [⟨Role.user, message⟩] }
  match llm a1.message_history with
  | none => (a1, none)
  | some response =>
      ({ a1 with
          message_history :=
            a1.message_history ++ [⟨Role.assistant, response.content⟩] },
       some ⟨response.content, response.metadata⟩)

/-- A sequence of `respond` calls, each required to succeed;
`none` if any LLM call in the sequence raises. -/
def respondAll (llm : LLM) : ChatAgent → List String → Option ChatAgent
  | a, [] => some a
  | a, m :: ms =>
      match respond llm a m with
      | (a1, some _) => respondAll llm a1 ms
      | (_, none) => none

/-- The exit tokens checked by `ChatAgent.run`
(`chat_agent.py` line 73). -/
def exitTokens : List String := ["exit", "quit", "q", "x", "bye"]

/-- The reformat re-prompt sent by `ChatAgent.run` when the first
structured-action interpretation fails (`chat_agent.py` lines 60-65;
the Python triple-quoted literal includes the surrounding newlines and
indentation). -/
def reformatPrompt : String :=
  "\n                    If your question fits one of the JSON templates I gave, \n                    rewrite using that format please\n                    "

/-- The body of the `while True` loop of `ChatAgent.run`
(`chat_agent.py` lines 57-76), with explicit state:

* `fuel` bounds the number of loop iterations (the Python loop has no
  such bound; `none` on fuel 0 records that the loop did not exit
  within the allotted iterations);
* `inputs` is the pending human-input lines (`input()` is modelled by
  consuming the head; an empty list blocks, modelled as `none`);
* `calls` counts LLM calls made so far (ghost);
* any LLM exception propagates as `none`.

On a normal `break` it returns the final agent state and the total
number of LLM calls. -/
def runLoop (llm : LLM) (handle : String → Option String) :
    Nat → ChatAgent → List String → String → Nat →
    Option (ChatAgent × Nat)
  | 0, _, _, _, _ => none
  | fuel + 1, a, inputs, llmMsg, calls =>
      let step : Option (ChatAgent × List String × String × Nat) :=
        match handle llmMsg with
        | some r => some (a, inputs, r, calls)
        | none =>
            match respond llm a reformatPrompt with
            | (_, none) => none
            | (a1, some d) =>
                match handle d.content with
                | some r => some (a1, inputs, r, calls + 1)
                | none =>
                    match inputs with
                    | [] => none
                    | line :: rest => some (a1, rest, line, calls + 1)
      match step with
      | none => none
      | some (a1, inputs1, msg, calls1) =>
          if msg ∈ exitTokens then some (a1, calls1)
          else
            match respond llm a1 msg with
            | (_, none) => none
            | (a2, some d) =>
                runLoop llm handle fuel a2 inputs1 d.content (calls1 + 1)

/-- `ChatAgent.run` (`chat_agent.py` lines 55-76): call `start`, then
iterate the loop body.  The returned `Nat` is the total number of LLM
calls (the `start` call counts as the first). -/
def run (llm : LLM) (handle : String → Option String) (fuel : Nat)
    (a : ChatAgent) (inputs : List String) : Option (ChatAgent × Nat) :=
  match start llm a with
  | (_, none) => none
  | (a0, some d) => runLoop llm handle fuel a0 inputs d.content 1

/-- Environment for `get_urls_and_paths` (`urls.py` lines 66-85):
`isUrl s` models pydantic `Url(url=s)` succeeding (strict URL-grammar
validation; `false` models `ValidationError` being raised and caught),
and `pathExists s` models `os.path.exists(s)`. -/
structure UrlEnv where
  isUrl : String → Bool
  pathExists : String → Bool

/-- Instrumented `get_urls_and_paths` (`urls.py` lines 66-85): for each
item, try URL validation first; on success append to the URLs list; on
`ValidationError`, consult `os.path.exists` and either append to the
paths list or drop the item with a logged warning.  The third component
is a ghost trace of the items on which the filesystem check
`os.path.exists` was actually consulted (the `except` branch). -/
def getUrlsAndPathsTr (env : UrlEnv) :
    List String → List String × List String × List String
  | [] => ([], [], [])
  | item :: rest =>
      let r := getUrlsAndPathsTr env rest
      if env.isUrl item then (item :: r.1, r.2.1, r.2.2)
      else if env.pathExists item then (r.1, item :: r.2.1, item :: r.2.2)
      else (r.1, r.2.1, item :: r.2.2)

/-- `get_urls_and_paths` (`urls.py` lines 66-85): the pair
(URLs, paths) returned to the caller. -/
def get_urls_and_paths (env : UrlEnv) (inputs : List String) :
    List String × List String :=
  ((getUrlsAndPathsTr env inputs).1, (getUrlsAndPathsTr env inputs).2.1)

/-- The network, as seen by `find_urls` (`urls.py` lines 88-129):
`fetchOk u` models `requests.get(u)` followed by `raise_for_status()`
succeeding (`false` models an `HTTPError`/`RequestException` being
raised and caught), and `links u` models the anchor hrefs extracted by
BeautifulSoup from the fetched page, already resolved against the page
base URL by `urljoin`. -/
structure Web where
  fetchOk : String → Bool
  links : String → List String

/-- Result of a crawl: the visited set (`urls.py` returns `visited`),
plus two ghost traces — `fetched` lists, in order, every URL on which a
fetch (`requests.get`) was attempted, and `failures` lists every URL
whose fetch failed (for which the `Failed to fetch` message was
printed). -/
structure CrawlRes where
  visited : Finset String
  fetched : List String
  failures : List String
deriving DecidableEq

mutual

/-- One call of `find_urls` (`urls.py` lines 88-129) with a fuel
argument standing for `max_depth - depth`: add the URL to the visited
set, attempt the fetch; on failure print a message and return the
visited set as-is; on success extract the links and, while fuel
remains (`depth < max_depth`), descend into the unvisited ones in
order. -/
def findUrlsAux (w : Web) (fuel : Nat) (url : String)
    (visited : Finset String) : CrawlRes :=
  let v := insert url visited
  if w.fetchOk url then
    match fuel with
    | 0 => ⟨v, [url], []⟩
    | f + 1 =>
        let r := crawlLinks w f (w.links url) v
        ⟨r.visited, url :: r.fetched, r.failures⟩
  else ⟨v, [url], [url]⟩
termination_by (fuel, 0)

/-- The `for link_url in urls` loop of `find_urls` (`urls.py` lines
125-127): membership in the visited set is checked before each
recursive descent; the visited set is threaded through the loop because
the Python recursion mutates the shared `visited` set in place. -/
def crawlLinks (w : Web) (fuel : Nat) (ls : List String)
    (visited : Finset String) : CrawlRes :=
  match ls with
  | [] => ⟨visited, [], []⟩
  | l :: rest =>
      if l ∈ visited then crawlLinks w fuel rest visited
      else
        let r := findUrlsAux w fuel l visited
        let r2 := crawlLinks w fuel rest r.visited
        ⟨r2.visited, r.fetched ++ r2.fetched, r.failures ++ r2.failures⟩
termination_by (fuel, ls.length + 1)

end

/-- `find_urls` with explicit `depth`/`max_depth` arguments as in the
source: the recursion depth available is `max_depth - depth` (the guard
`depth < max_depth` holds exactly while that difference is positive,
and each level of recursion increments `depth` by one). -/
def find_urls (w : Web) (url : String) (visited : Finset String)
    (depth maxDepth : Nat) : CrawlRes :=
  findUrlsAux w (maxDepth - depth) url visited

/-- A top-level crawl invocation: `find_urls(url, max_depth=...)` with
the defaults `visited=None` (fresh empty set) and `depth=0`
(`urls.py` lines 105-106). -/
def crawl (w : Web) (seed : String) (maxDepth : Nat) : CrawlRes :=
  find_urls w seed ∅ 0 maxDepth

/-- Freshness invariant tying a crawl result to the visited set it
started from: no URL is fetched twice, every fetched URL was unvisited
at call time, every fetched URL ends up in the returned visited set,
and the visited set only grows. -/
def FreshRes (visited : Finset String) (r : CrawlRes) : Prop :=
  r.fetched.Nodup ∧ (∀ x ∈ r.fetched, x ∉ visited) ∧
    (∀ x ∈ r.fetched, x ∈ r.visited) ∧ visited ⊆ r.visited

/-- Stub LLM capability that replies "OK" to every transcript (the
end-to-end scenario's echo stub). -/
def stubEchoLlm : LLM := fun _ => some ⟨"OK", "m"⟩

/-- Stub LLM capability whose every call raises. -/
def stubFailLlm : LLM := fun _ => none

/-- Stub structured-action interpreter that never recognizes a
message (Python `handle_message` returning `None`). -/
def stubNoHandle : String → Option String := fun _ => none

/-- A `ChatAgent` as freshly constructed with the default task spec
(`chat_agent.py` line 52): one system message, empty history. -/
def demoAgent : ChatAgent :=
  ⟨[⟨Role.system, "You are a helpful assistant"⟩], []⟩

/-- State after `start()` on `demoAgent` with the echo stub. -/
def seqAgent1 : ChatAgent := (start stubEchoLlm demoAgent).1

/-- State after a further `respond("hi")`. -/
def seqAgent2 : ChatAgent := (respond stubEchoLlm seqAgent1 "hi").1

/-- State after a further second `start()` call. -/
def seqAgent3 : ChatAgent := (start stubEchoLlm seqAgent2).1

/-- Stub web for crawl witnesses: fetching "bad" fails, every other
fetch succeeds; every page links to "x". -/
def stubWeb : Web := ⟨fun s => s != "bad", fun _ => ["x"]⟩

/-- Stub classification environment in which exactly "http://a"
validates as a URL and every string exists as a filesystem path. -/
def stubUrlEnv : UrlEnv := ⟨fun s => s == "http://a", fun _ => true⟩

/-- Unfolding of `respond` as a single case split on the LLM call. -/
theorem respond_eq (llm : LLM) (a : ChatAgent) (m : String) :
    respond llm a m =
      match llm (a.message_history ++ [⟨Role.user, m⟩]) with
      | none =>
          ({ a with
              message_history := a.message_history ++ [⟨Role.user, m⟩] },
           none)
      | some r =>
          ({ a with
              message_history := a.message_history ++
                [⟨Role.user, m⟩, ⟨Role.assistant, r.content⟩] },
           some ⟨r.content, r.metadata⟩) := by
  rcases hl : llm (a.message_history ++ [⟨Role.user, m⟩]) with _ | r <;>
    simp [respond, hl]

/-- A successful `respond` call leaves `task_messages` unchanged and
extends the history by exactly the user message and the assistant
reply. -/
theorem respond_success_history {llm : LLM} {a a' : ChatAgent}
    {m : String} {d : Document} (h : respond llm a m = (a', some d)) :
    a'.task_messages = a.task_messages ∧
    a'.message_history = a.message_history ++
      [⟨Role.user, m⟩, ⟨Role.assistant, d.content⟩] := by
  rw [respond_eq] at h
  rcases hl : llm (a.message_history ++ [⟨Role.user, m⟩]) with _ | r <;>
    rw [hl] at h
  · simp at h
  · simp only [Prod.mk.injEq, Option.some.injEq] at h
    obtain ⟨h1, h2⟩ := h
    subst h1
    subst h2
    exact ⟨rfl, rfl⟩

/-- A successful `start` call leaves `task_messages` unchanged and
replaces the history with the task messages plus the assistant
reply. -/
theorem start_success {llm : LLM} {a a' : ChatAgent} {d : Document}
    (h : start llm a = (a', some d)) :
    a'.task_messages = a.task_messages ∧
    a'.message_history = a.task_messages ++ [⟨Role.assistant, d.content⟩] := by
  unfold start at h
  rcases hl : llm a.task_messages with _ | r <;> rw [hl] at h
  · simp at h
  · simp only [Prod.mk.injEq, Option.some.injEq] at h
    obtain ⟨h1, h2⟩ := h
    subst h1
    subst h2
    exact ⟨rfl, rfl⟩

/-- A successful sequence of `respond` calls leaves `task_messages`
unchanged and extends the history by exactly two messages per call. -/
theorem respondAll_history {llm : LLM} :
    ∀ (ms : List String) (a a' : ChatAgent),
      respondAll llm a ms = some a' →
      a'.task_messages = a.task_messages ∧
      ∃ t : List LLMMessage,
        a'.message_history = a.message_history ++ t ∧
        t.length = 2 * ms.length := by
  intro ms
  induction ms with
  | nil =>
      intro a a' h
      simp [respondAll] at h
      subst h
      exact ⟨rfl, [], by simp⟩
  | cons m ms ih =>
      intro a a' h
      rw [respondAll] at h
      rcases hr : respond llm a m with ⟨a1, od⟩
      rw [hr] at h
      rcases od with _ | d
      · simp at h
      · obtain ⟨ht, t, hh, hlen⟩ := ih a1 a' h
        obtain ⟨ht2, hh2⟩ := respond_success_history hr
        refine ⟨ht.trans ht2,
          [⟨Role.user, m⟩, ⟨Role.assistant, d.content⟩] ++ t, ?_, ?_⟩
        · rw [hh, hh2, List.append_assoc]
        · simp at hlen ⊢
          omega

/-- C1: after one successful `start()` and `n` successful `respond()`
calls, the transcript length is `len(task_messages) + 1 + 2*n` (the
initial assistant reply from `start`, plus one user/assistant pair per
`respond` call). -/
theorem transcript_growth (llm : LLM) (a a1 a2 : ChatAgent) (d : Document)
    (msgs : List String)
    (h1 : start llm a = (a1, some d))
    (h2 : respondAll llm a1 msgs = some a2) :
    a2.message_history.length =
      a.task_messages.length + 1 + 2 * msgs.length := by
  obtain ⟨-, hha⟩ := start_success h1
  obtain ⟨-, t, hhb, hlen⟩ := respondAll_history msgs a1 a2 h2
  rw [hhb, hha]
  simp [hlen]
  omega

/-- C1 witness: with the echo stub and two `respond` calls the final
transcript has `1 + 1 + 2*2 = 6` messages. -/
theorem transcript_growth_witness :
    (⟨[⟨Role.system, "You are a helpful assistant"⟩],
      [⟨Role.system, "You are a helpful assistant"⟩,
       ⟨Role.assistant, "OK"⟩, ⟨Role.user, "hi"⟩, ⟨Role.assistant, "OK"⟩,
       ⟨Role.user, "there"⟩, ⟨Role.assistant, "OK"⟩]⟩ :
      ChatAgent).message_history.length = 1 + 1 + 2 * 2 :=
  transcript_growth stubEchoLlm demoAgent
    ⟨[⟨Role.system, "You are a helpful assistant"⟩],
     [⟨Role.system, "You are a helpful assistant"⟩, ⟨Role.assistant, "OK"⟩]⟩
    ⟨[⟨Role.system, "You are a helpful assistant"⟩],
     [⟨Role.system, "You are a helpful assistant"⟩,
      ⟨Role.assistant, "OK"⟩, ⟨Role.user, "hi"⟩, ⟨Role.assistant, "OK"⟩,
      ⟨Role.user, "there"⟩, ⟨Role.assistant, "OK"⟩]⟩
    ⟨"OK", "m"⟩ ["hi", "there"] rfl rfl

/-- C2: a successful `start()` sends `task_messages` to the LLM, sets
`message_history = task_messages + [assistant reply]`, and returns the
reply content (with its metadata) as a `Document`. -/
theorem start_sets_history (llm : LLM) (a : ChatAgent) (r : Document)
    (h : llm a.task_messages = some r) :
    start llm a =
      ({ a with
          message_history :=
            a.task_messages ++ [⟨Role.assistant, r.content⟩] },
       some ⟨r.content, r.metadata⟩) := by
  unfold start
  rw [h]

/-- C2 witness: the end-to-end scenario — `start()` on an agent whose
task is the single system message "You are a helpful assistant", with
a stub LLM echoing "OK", yields
`message_history == [system_msg, assistant "OK"]`. -/
theorem start_sets_history_witness :
    start stubEchoLlm demoAgent =
      (⟨[⟨Role.system, "You are a helpful assistant"⟩],
        [⟨Role.system, "You are a helpful assistant"⟩,
         ⟨Role.assistant, "OK"⟩]⟩,
       some ⟨"OK", "m"⟩) :=
  start_sets_history stubEchoLlm demoAgent ⟨"OK", "m"⟩ rfl

/-- C10: if the LLM call inside `respond` raises, the exception
propagates (no `Document` is produced) and the history has grown by
exactly the appended user message — no assistant message, and no
rollback to the pre-call state. -/
theorem respond_exception_state (llm : LLM) (a : ChatAgent) (m : String)
    (h : llm (a.message_history ++ [⟨Role.user, m⟩]) = none) :
    respond llm a m =
      ({ a with
          message_history := a.message_history ++ [⟨Role.user, m⟩] },
       none) := by
  rw [respond_eq, h]

/-- C10 witness: a failing stub LLM leaves the fresh agent with just
the appended user message and no reply. -/
theorem respond_exception_state_witness :
    respond stubFailLlm demoAgent "hi" =
      (⟨[⟨Role.system, "You are a helpful assistant"⟩],
        [⟨Role.user, "hi"⟩]⟩,
       none) :=
  respond_exception_state stubFailLlm demoAgent "hi" rfl

/-- C3 counterexample: over the call sequence `start(); respond("hi");
start()` — all three calls succeeding — the transcript after the
second call (4 messages) is not an initial segment of the transcript
after the third (2 messages): a further `start()` resets
`message_history`, so arbitrary interleavings of `start` and `respond`
are not monotone. -/
theorem transcript_monotone_cex :
    (start stubEchoLlm demoAgent).2.isSome = true ∧
    (respond stubEchoLlm seqAgent1 "hi").2.isSome = true ∧
    (start stubEchoLlm seqAgent2).2.isSome = true ∧
    ¬ ∃ t, seqAgent2.message_history ++ t = seqAgent3.message_history := by
  refine ⟨rfl, rfl, rfl, ?_⟩
  rintro ⟨t, ht⟩
  have hl := congrArg List.length ht
  rw [List.length_append] at hl
  have e2 : seqAgent2.message_history.length = 4 := rfl
  have e3 : seqAgent3.message_history.length = 2 := rfl
  omega

/-- C3 (amended): within a session consisting of one initial `start()`
followed only by `respond()` calls, the transcript only grows — the
state after any earlier point of the sequence is an initial segment of
the state after any later point. -/
theorem transcript_monotone_after_start (llm : LLM) (a a1 a2 a3 : ChatAgent)
    (d : Document) (ms1 ms2 : List String)
    (_h1 : start llm a = (a1, some d))
    (h2 : respondAll llm a1 ms1 = some a2)
    (h3 : respondAll llm a2 ms2 = some a3) :
    (∃ t, a1.message_history ++ t = a2.message_history) ∧
    (∃ t, a2.message_history ++ t = a3.message_history) := by
  obtain ⟨-, t1, hh1, -⟩ := respondAll_history ms1 a1 a2 h2
  obtain ⟨-, t2, hh2, -⟩ := respondAll_history ms2 a2 a3 h3
  exact ⟨⟨t1, hh1.symm⟩, ⟨t2, hh2.symm⟩⟩

/-- C3 (amended) witness: with the echo stub, the transcript after
`start(); respond("hi")` extends the one after `start()`, and the one
after a further `respond("yo")` extends it again. -/
theorem transcript_monotone_after_start_witness :
    (∃ t,
      (⟨[⟨Role.system, "You are a helpful assistant"⟩],
        [⟨Role.system, "You are a helpful assistant"⟩,
         ⟨Role.assistant, "OK"⟩]⟩ : ChatAgent).message_history ++ t =
      (⟨[⟨Role.system, "You are a helpful assistant"⟩],
        [⟨Role.system, "You are a helpful assistant"⟩, ⟨Role.assistant, "OK"⟩,
         ⟨Role.user, "hi"⟩, ⟨Role.assistant, "OK"⟩]⟩ :
        ChatAgent).message_history) ∧
    (∃ t,
      (⟨[⟨Role.system, "You are a helpful assistant"⟩],
        [⟨Role.system, "You are a helpful assistant"⟩, ⟨Role.assistant, "OK"⟩,
         ⟨Role.user, "hi"⟩, ⟨Role.assistant, "OK"⟩]⟩ :
        ChatAgent).message_history ++ t =
      (⟨[⟨Role.system, "You are a helpful assistant"⟩],
        [⟨Role.system, "You are a helpful assistant"⟩, ⟨Role.assistant, "OK"⟩,
         ⟨Role.user, "hi"⟩, ⟨Role.assistant, "OK"⟩,
         ⟨Role.user, "yo"⟩, ⟨Role.assistant, "OK"⟩]⟩ :
        ChatAgent).message_history) :=
  transcript_monotone_after_start stubEchoLlm demoAgent
    ⟨[⟨Role.system, "You are a helpful assistant"⟩],
     [⟨Role.system, "You are a helpful assistant"⟩, ⟨Role.assistant, "OK"⟩]⟩
    ⟨[⟨Role.system, "You are a helpful assistant"⟩],
     [⟨Role.system, "You are a helpful assistant"⟩, ⟨Role.assistant, "OK"⟩,
      ⟨Role.user, "hi"⟩, ⟨Role.assistant, "OK"⟩]⟩
    ⟨[⟨Role.system, "You are a helpful assistant"⟩],
     [⟨Role.system, "You are a helpful assistant"⟩, ⟨Role.assistant, "OK"⟩,
      ⟨Role.user, "hi"⟩, ⟨Role.assistant, "OK"⟩,
      ⟨Role.user, "yo"⟩, ⟨Role.assistant, "OK"⟩]⟩
    ⟨"OK", "m"⟩ ["hi"] ["yo"] rfl rfl rfl

/-- C4: if on the first loop iteration of `run()` the structured-action
interpretation fails both on the initial LLM output and after the
single reformat retry, and the first human-input fallback line is an
exit token, then `run` terminates within that one iteration (fuel 1
suffices) having made exactly 2 LLM calls (the `start` call and the
reformat `respond`) — no further LLM call is made. -/
theorem run_exit_first_iteration (llm : LLM) (handle : String → Option String)
    (a a1 a2 : ChatAgent) (d1 d2 : Document) (tok : String)
    (rest : List String)
    (h1 : start llm a = (a1, some d1))
    (h2 : handle d1.content = none)
    (h3 : respond llm a1 reformatPrompt = (a2, some d2))
    (h4 : handle d2.content = none)
    (h5 : tok ∈ exitTokens) :
    run llm handle 1 a (tok :: rest) = some (a2, 2) := by
  unfold run
  rw [h1]
  show runLoop llm handle (0 + 1) a1 (tok :: rest) d1.content 1 = some (a2, 2)
  rw [runLoop]
  simp only [h2, h3, h4]
  simp [h5]

/-- C4 witness: with the echo stub, a never-recognizing interpreter and
the single input line "q", `run` returns after one iteration with 2 LLM
calls. -/
theorem run_exit_first_iteration_witness :
    run stubEchoLlm stubNoHandle 1 demoAgent ["q"] =
      some
        (⟨[⟨Role.system, "You are a helpful assistant"⟩],
          [⟨Role.system, "You are a helpful assistant"⟩,
           ⟨Role.assistant, "OK"⟩, ⟨Role.user, reformatPrompt⟩,
           ⟨Role.assistant, "OK"⟩]⟩,
         2) :=
  run_exit_first_iteration stubEchoLlm stubNoHandle demoAgent
    ⟨[⟨Role.system, "You are a helpful assistant"⟩],
     [⟨Role.system, "You are a helpful assistant"⟩, ⟨Role.assistant, "OK"⟩]⟩
    ⟨[⟨Role.system, "You are a helpful assistant"⟩],
     [⟨Role.system, "You are a helpful assistant"⟩, ⟨Role.assistant, "OK"⟩,
      ⟨Role.user, reformatPrompt⟩, ⟨Role.assistant, "OK"⟩]⟩
    ⟨"OK", "m"⟩ ⟨"OK", "m"⟩ "q" [] rfl rfl rfl rfl (by decide)

/-- C6: a crawl with `max_depth = 0` (and the default fresh visited
set) returns exactly the singleton visited set containing the seed,
and attempts exactly one fetch (the seed itself) — no recursive
descent — whether or not that fetch succeeds. -/
theorem crawl_depth_zero (w : Web) (seed : String) :
    (crawl w seed 0).visited = {seed} ∧
    (crawl w seed 0).fetched = [seed] := by
  unfold crawl find_urls
  cases hw : w.fetchOk seed <;> simp [findUrlsAux, hw]

/-- The link loop preserves the freshness invariant, assuming every
single `find_urls` call at the same fuel does. -/
theorem freshRes_crawlLinks_of (w : Web) (fuel : Nat)
    (hP : ∀ url visited, url ∉ visited →
      FreshRes visited (findUrlsAux w fuel url visited)) :
    ∀ (ls : List String) (visited : Finset String),
      FreshRes visited (crawlLinks w fuel ls visited) := by
  intro ls
  induction ls with
  | nil =>
      intro visited
      simp [crawlLinks, FreshRes]
  | cons l rest ih =>
      intro visited
      by_cases hl : l ∈ visited
      · simpa [crawlLinks, hl] using ih visited
      · obtain ⟨n1, f1, m1, s1⟩ := hP l visited hl
        obtain ⟨n2, f2, m2, s2⟩ := ih (findUrlsAux w fuel l visited).visited
        simp only [crawlLinks, if_neg hl]
        refine ⟨?_, ?_, ?_, ?_⟩
        · rw [List.nodup_append]
          exact ⟨n1, n2, fun x hx1 hx2 => f2 x hx2 (m1 x hx1)⟩
        · intro x hx
          rcases List.mem_append.mp hx with hx1 | hx2
          · exact f1 x hx1
          · exact fun hv => f2 x hx2 (s1 hv)
        · intro x hx
          rcases List.mem_append.mp hx with hx1 | hx2
          · exact s2 (m1 x hx1)
          · exact m2 x hx2
        · exact s1.trans s2

/-- Every `find_urls` call on an unvisited URL satisfies the freshness
invariant: its fetch trace is duplicate-free, touches only URLs that
were unvisited when the call began, and every fetched URL is in the
returned (monotonically grown) visited set. -/
theorem freshRes_findUrlsAux (w : Web) :
    ∀ (fuel : Nat) (url : String) (visited : Finset String),
      url ∉ visited → FreshRes visited (findUrlsAux w fuel url visited) := by
  intro fuel
  induction fuel with
  | zero =>
      intro url visited hu
      cases hw : w.fetchOk url <;>
        simp [findUrlsAux, hw, FreshRes, hu, Finset.subset_insert]
  | succ f ih =>
      intro url visited hu
      cases hw : w.fetchOk url
      · simp [findUrlsAux, hw, FreshRes, hu, Finset.subset_insert]
      · obtain ⟨n1, f1, m1, s1⟩ :=
          freshRes_crawlLinks_of w f ih (w.links url) (insert url visited)
        simp only [findUrlsAux, hw, if_pos]
        refine ⟨?_, ?_, ?_, ?_⟩
        · exact List.nodup_cons.mpr
            ⟨fun hx => f1 url hx (Finset.mem_insert_self url visited), n1⟩
        · intro x hx
          rcases List.mem_cons.mp hx with rfl | hx2
          · exact hu
          · exact fun hv => f1 x hx2 (Finset.mem_insert_of_mem hv)
        · intro x hx
          rcases List.mem_cons.mp hx with rfl | hx2
          · exact s1 (Finset.mem_insert_self x visited)
          · exact m1 x hx2
        · exact (Finset.subset_insert url visited).trans s1

/-- C7: over a whole crawl invocation every URL is fetched at most once
(the fetch trace is duplicate-free), and every fetched URL is recorded
in the returned visited set (each URL is added to the visited set
before its page is fetched, and membership is checked before each
recursive descent). -/
theorem crawl_fetch_at_most_once (w : Web) (seed : String) (maxDepth : Nat) :
    (crawl w seed maxDepth).fetched.Nodup ∧
    ∀ x ∈ (crawl w seed maxDepth).fetched, x ∈ (crawl w seed maxDepth).visited := by
  obtain ⟨n1, -, m1, -⟩ :=
    freshRes_findUrlsAux w (maxDepth - 0) seed ∅ (Finset.not_mem_empty seed)
  exact ⟨n1, m1⟩

/-- C8: a failed fetch is non-fatal and local — the failing URL's call
returns at once with the URL marked visited, one fetch attempt and one
emitted failure message, contributing no links; and in the enclosing
link loop the traversal of the remaining sibling links continues from
that grown visited set, the overall result still being returned. -/
theorem crawl_fetch_failure_nonfatal (w : Web) (fuel : Nat) (u : String)
    (visited : Finset String) (rest : List String)
    (hfail : w.fetchOk u = false) (hu : u ∉ visited) :
    findUrlsAux w fuel u visited = ⟨insert u visited, [u], [u]⟩ ∧
    crawlLinks w fuel (u :: rest) visited =
      ⟨(crawlLinks w fuel rest (insert u visited)).visited,
       u :: (crawlLinks w fuel rest (insert u visited)).fetched,
       u :: (crawlLinks w fuel rest (insert u visited)).failures⟩ := by
  have h1 : findUrlsAux w fuel u visited = ⟨insert u visited, [u], [u]⟩ := by
    cases fuel <;> simp [findUrlsAux, hfail]
  refine ⟨h1, ?_⟩
  simp [crawlLinks, hu, h1]

/-- C8 witness: in `stubWeb` the fetch of "bad" fails; the crawl of the
link list `["bad", "ok"]` marks "bad" visited, records the failure and
continues with the sibling "ok". -/
theorem crawl_fetch_failure_nonfatal_witness :
    findUrlsAux stubWeb 1 "bad" ∅ = ⟨insert "bad" ∅, ["bad"], ["bad"]⟩ ∧
    crawlLinks stubWeb 1 ["bad", "ok"] ∅ =
      ⟨(crawlLinks stubWeb 1 ["ok"] (insert "bad" ∅)).visited,
       "bad" :: (crawlLinks stubWeb 1 ["ok"] (insert "bad" ∅)).fetched,
       "bad" :: (crawlLinks stubWeb 1 ["ok"] (insert "bad" ∅)).failures⟩ :=
  crawl_fetch_failure_nonfatal stubWeb 1 "bad" ∅ ["ok"] (by decide) (by decide)

/-- The URL component of the classification is the in-order filter of
the inputs by URL validity. -/
theorem getUrlsAndPathsTr_fst (env : UrlEnv) :
    ∀ inputs : List String,
      (getUrlsAndPathsTr env inputs).1 = inputs.filter env.isUrl := by
  intro inputs
  induction inputs with
  | nil => simp [getUrlsAndPathsTr]
  | cons item rest ih =>
      cases hu : env.isUrl item
      · cases hp : env.pathExists item <;>
          simp [getUrlsAndPathsTr, List.filter_cons, hu, hp, ih]
      · simp [getUrlsAndPathsTr, List.filter_cons, hu, ih]

/-- The path component of the classification is the in-order filter of
the inputs by "not a URL but an existing path". -/
theorem getUrlsAndPathsTr_snd (env : UrlEnv) :
    ∀ inputs : List String,
      (getUrlsAndPathsTr env inputs).2.1 =
        inputs.filter (fun s => !env.isUrl s && env.pathExists s) := by
  intro inputs
  induction inputs with
  | nil => simp [getUrlsAndPathsTr]
  | cons item rest ih =>
      cases hu : env.isUrl item
      · cases hp : env.pathExists item <;>
          simp [getUrlsAndPathsTr, List.filter_cons, hu, hp, ih]
      · simp [getUrlsAndPathsTr, List.filter_cons, hu, ih]

/-- The filesystem check is consulted exactly on the items that fail
URL validation (the `except ValidationError` branch). -/
theorem getUrlsAndPathsTr_checked (env : UrlEnv) :
    ∀ inputs : List String,
      (getUrlsAndPathsTr env inputs).2.2 =
        inputs.filter (fun s => !env.isUrl s) := by
  intro inputs
  induction inputs with
  | nil => simp [getUrlsAndPathsTr]
  | cons item rest ih =>
      cases hu : env.isUrl item
      · cases hp : env.pathExists item <;>
          simp [getUrlsAndPathsTr, List.filter_cons, hu, hp, ih]
      · simp [getUrlsAndPathsTr, List.filter_cons, hu, ih]

/-- C5: `get_urls_and_paths` returns the valid URLs and the existing
non-URL paths as two in-order filters of the input (relative order
within each class preserved, duplicates permitted, classification
total so no exception escapes): a string is in the URL result iff it
occurs in the input and validates as a URL, and in the paths result
iff it occurs in the input, fails URL validation and exists as a path
— so strings that are neither appear in neither list. -/
theorem get_urls_and_paths_classification (env : UrlEnv)
    (inputs : List String) :
    (get_urls_and_paths env inputs).1 = inputs.filter env.isUrl ∧
    (get_urls_and_paths env inputs).2 =
      inputs.filter (fun s => !env.isUrl s && env.pathExists s) ∧
    (∀ s, s ∈ (get_urls_and_paths env inputs).1 ↔
      s ∈ inputs ∧ env.isUrl s = true) ∧
    (∀ s, s ∈ (get_urls_and_paths env inputs).2 ↔
      s ∈ inputs ∧ env.isUrl s = false ∧ env.pathExists s = true) := by
  unfold get_urls_and_paths
  rw [getUrlsAndPathsTr_fst, getUrlsAndPathsTr_snd]
  refine ⟨rfl, rfl, ?_, ?_⟩
  · intro s
    simp [List.mem_filter]
  · intro s
    simp [List.mem_filter, Bool.and_eq_true, Bool.not_eq_true',
      and_assoc]

/-- C9: an input string that validates as a URL is classified as a URL
only, even if it also exists as a filesystem path — it lands in the
URL result, never in the paths result, and the filesystem check is
never consulted for it (URL validation is attempted first). -/
theorem url_wins_over_path (env : UrlEnv) (inputs : List String)
    (s : String) (hs : s ∈ inputs) (hu : env.isUrl s = true) :
    s ∈ (get_urls_and_paths env inputs).1 ∧
    s ∉ (get_urls_and_paths env inputs).2 ∧
    s ∉ (getUrlsAndPathsTr env inputs).2.2 := by
  unfold get_urls_and_paths
  rw [getUrlsAndPathsTr_fst, getUrlsAndPathsTr_snd, getUrlsAndPathsTr_checked]
  refine ⟨?_, ?_, ?_⟩
  · exact List.mem_filter.mpr ⟨hs, hu⟩
  · intro hmem
    have := (List.mem_filter.mp hmem).2
    simp [hu] at this
  · intro hmem
    have := (List.mem_filter.mp hmem).2
    simp [hu] at this

/-- C9 witness: in `stubUrlEnv` the string "http://a" both validates
as a URL and exists as a path; it is classified as a URL only, with no
filesystem check. -/
theorem url_wins_over_path_witness :
    "http://a" ∈ (get_urls_and_paths stubUrlEnv ["http://a"]).1 ∧
    "http://a" ∉ (get_urls_and_paths stubUrlEnv ["http://a"]).2 ∧
    "http://a" ∉ (getUrlsAndPathsTr stubUrlEnv ["http://a"]).2.2 :=
  url_wins_over_path stubUrlEnv ["http://a"] "http://a" (by decide) (by decide)

end LLMAgent
